import Mathlib

/-!
Verification of the swagger2jmeter core pipeline (src/app/page.tsx):
the endpoint extractor `parseOpenAPI`, the base-url resolver
`detectBaseUrl` / `splitBaseUrl`, and the plan serializer `generateJMX`.

The TypeScript runs on untyped JSON values, so the embedding works over a
JavaScript-value type `JsonV` (JSON values as produced by `JSON.parse`;
`undefined` is represented by `Option.none` at access sites).  Property
iteration follows the JavaScript own-property order (canonical integer-like
keys ascending first, then remaining string keys in insertion order), and
`Object.keys` on `null`/`undefined` raises a `TypeError`, modelled with
`Except`.  Characters are treated as code points (ASCII-faithful).
-/

set_option maxRecDepth 8192

namespace S2J

/-- JavaScript/JSON values as produced by `JSON.parse`: null, booleans,
numbers (modelled as integers; no claim depends on float behaviour),
strings, arrays and objects with ordered fields. -/
inductive JsonV : Type where
  | null : JsonV
  | bool : Bool → JsonV
  | num : Int → JsonV
  | str : String → JsonV
  | arr : List JsonV → JsonV
  | obj : List (String × JsonV) → JsonV

/-- JavaScript truthiness of a value (`!v` negates this). -/
def jsTruthy : JsonV → Bool
  | .null => false
  | .bool b => b
  | .num n => n != 0
  | .str s => s != ""
  | .arr _ => true
  | .obj _ => true

/-- Whether `typeof v === "object"`; true for null, arrays and objects. -/
def jsTypeofIsObject : JsonV → Bool
  | .null => true
  | .arr _ => true
  | .obj _ => true
  | _ => false

/-- Decimal digit value of a character, if it is one. -/
def digitVal (c : Char) : Option Nat :=
  if c.isDigit then some (c.toNat - 48) else none

/-- Accumulate a decimal numeral over characters. -/
def natOfDigitsAux : List Char → Nat → Option Nat
  | [], acc => some acc
  | c :: r, acc =>
      match digitVal c with
      | some d => natOfDigitsAux r (acc * 10 + d)
      | none => none

/-- Parse a nonempty all-digit string as a natural number (kernel-reducible
counterpart of `String.toNat?`). -/
def strToNatQ (s : String) : Option Nat :=
  if s.data.isEmpty then none else natOfDigitsAux s.data 0

/-- Uppercase every character (kernel-reducible counterpart of
`String.toUpper`; ASCII-faithful like the JavaScript `toUpperCase` on the
inputs that matter here). -/
def strUpper (s : String) : String :=
  ⟨s.data.map Char.toUpper⟩

/-- Lowercase every character. -/
def strLower (s : String) : String :=
  ⟨s.data.map Char.toLower⟩

/-- JavaScript `String.prototype.startsWith`. -/
def strStartsWith (s p : String) : Bool :=
  p.data.isPrefixOf s.data

/-- Whitespace for the purpose of `String.prototype.trim`. -/
def chIsWs (c : Char) : Bool :=
  c == ' ' || c == '\t' || c == '\n' || c == '\r' || c.toNat == 11 || c.toNat == 12

/-- Drop leading whitespace from a character list. -/
def trimLeftLC : List Char → List Char
  | [] => []
  | c :: r => if chIsWs c then trimLeftLC r else c :: r

/-- JavaScript `String.prototype.trim` (kernel-reducible). -/
def strTrim (s : String) : String :=
  ⟨(trimLeftLC (trimLeftLC s.data).reverse).reverse⟩

/-- A string is a canonical array index (the integer-like keys that
JavaScript enumerates first, in ascending order). -/
def isArrayIndex (s : String) : Option Nat :=
  match strToNatQ s with
  | some n => if n < 4294967295 && toString n == s then some n else none
  | none => none

/-- Insert into an ascending list of naturals. -/
def insertNat (n : Nat) : List Nat → List Nat
  | [] => [n]
  | m :: r => if n ≤ m then n :: m :: r else m :: insertNat n r

/-- Insertion sort, ascending. -/
def sortNat : List Nat → List Nat
  | [] => []
  | n :: r => insertNat n (sortNat r)

/-- JavaScript own-property key order for a list of property names:
canonical integer-like keys ascending, then the rest in insertion order. -/
def jsOwnKeys (names : List String) : List String :=
  (sortNat (names.filterMap isArrayIndex)).map (fun n => toString n)
    ++ names.filter (fun s => (isArrayIndex s).isNone)

/-- Decimal strings for indices `0 .. n-1`. -/
def indexKeys (n : Nat) : List String :=
  (List.range n).map (fun i => toString i)

/-- `Object.keys v` for a non-null value (for `null`/`undefined` the real
`Object.keys` throws; callers handle that case separately).  Objects give
their own keys, arrays and strings give index keys, primitives give none. -/
def jsKeysNN : JsonV → List String
  | .obj fs => jsOwnKeys (fs.map Prod.fst)
  | .arr xs => indexKeys xs.length
  | .str s => indexKeys s.length
  | _ => []

/-- Property access `v[k]`; `none` plays the role of `undefined`.  Arrays
and strings answer only canonical index keys, objects their own fields. -/
def jsGet : JsonV → String → Option JsonV
  | .obj fs, k => fs.lookup k
  | .arr xs, k =>
      match isArrayIndex k with
      | some i => xs.get? i
      | none => none
  | .str s, k =>
      match isArrayIndex k with
      | some i => (s.data.get? i).map (fun c => .str (String.singleton c))
      | none => none
  | _, _ => none

/-- The `??` operator applied to a property access: `undefined` and `null`
fall back to the default. -/
def jsCoalesce : Option JsonV → JsonV → JsonV
  | none, d => d
  | some .null, d => d
  | some v, _ => v

/-- The `||` operator on two property accesses: the first value when truthy,
otherwise the second access's result. -/
def jsOr (a b : Option JsonV) : Option JsonV :=
  match a with
  | some v => if jsTruthy v then some v else b
  | none => b

/-- The call `v.slice()`: a shallow copy for arrays (and the string itself
for strings); any other receiver has no `slice` method, a `TypeError`. -/
def jsSlice : JsonV → Except String JsonV
  | .arr xs => .ok (.arr xs)
  | .str s => .ok (.str s)
  | _ => .error ("TypeError: slice is not a function")

/-- The error message of `Object.keys` on `null`/`undefined`. -/
def keysErr : String := "TypeError: Cannot convert undefined or null to object"

/-- One extracted HTTP operation, mirroring the `Endpoint` interface of the
source (the `_index` display field belongs to the excluded UI layer). -/
structure Endpoint : Type where
  path : String
  method : String
  summary : Option JsonV
  description : Option JsonV
  parameters : JsonV
  requestBody : JsonV
  tags : JsonV
  rawOperation : JsonV

/-- The dialect test `!!doc.openapi?.startsWith("3")`: absent/null gives
`false`, a string is tested, any other value has no `startsWith` method. -/
def openapiIsV3 (doc : JsonV) : Except String Bool :=
  match jsGet doc ("openapi") with
  | none => .ok false
  | some .null => .ok false
  | some (.str s) => .ok (strStartsWith s ("3"))
  | some _ => .error ("TypeError: doc.openapi.startsWith is not a function")

/-- The expression `doc.paths || {}`. -/
def pathsValue (doc : JsonV) : JsonV :=
  match jsGet doc ("paths") with
  | some v => if jsTruthy v then v else .obj []
  | none => .obj []

/-- The loop guard of `parseOpenAPI`: a method entry is retained unless its
value is absent, falsy, or not of `typeof "object"`. -/
def retainMethod (obj : JsonV) (k : String) : Option JsonV :=
  match jsGet obj k with
  | none => none
  | some m => if jsTruthy m && jsTypeofIsObject m then some m else none

/-- Building one descriptor from a retained `(path, method, operation)`
entry, exactly as the `out.push({...})` of the source; `(m.parameters ??
[]).slice()` can raise. -/
def buildEndpoint (isV3 : Bool) (path k : String) (m : JsonV) : Except String Endpoint :=
  match jsSlice (jsCoalesce (jsGet m ("parameters")) (.arr [])) with
  | .error e => .error e
  | .ok ps =>
      .ok ⟨path, strUpper k,
        jsOr (jsGet m ("summary")) (jsGet m ("operationId")),
        jsGet m ("description"),
        ps,
        (if isV3 then jsCoalesce (jsGet m ("requestBody")) JsonV.null else JsonV.null),
        jsCoalesce (jsGet m ("tags")) (.arr []),
        m⟩

/-- The inner loop of `parseOpenAPI` over the method keys of one path. -/
def parseMethods (isV3 : Bool) (path : String) (obj : JsonV) :
    List String → Except String (List Endpoint)
  | [] => .ok []
  | k :: ks =>
      match retainMethod obj k with
      | none => parseMethods isV3 path obj ks
      | some m =>
          match buildEndpoint isV3 path k m with
          | .error e => .error e
          | .ok e =>
              match parseMethods isV3 path obj ks with
              | .error err => .error err
              | .ok es => .ok (e :: es)

/-- The outer loop of `parseOpenAPI` over the path keys; `Object.keys` on a
`null` or absent path value raises. -/
def parsePaths (isV3 : Bool) (paths : JsonV) :
    List String → Except String (List Endpoint)
  | [] => .ok []
  | p :: ps =>
      match jsGet paths p with
      | none => .error keysErr
      | some .null => .error keysErr
      | some obj =>
          match parseMethods isV3 p obj (jsKeysNN obj) with
          | .error e => .error e
          | .ok es =>
              match parsePaths isV3 paths ps with
              | .error e => .error e
              | .ok rest => .ok (es ++ rest)

/-- The endpoint extractor `parseOpenAPI` of the source: falsy documents
give the empty list, then the dialect is determined, then all paths are
iterated; an exception anywhere discards the whole result. -/
def parseOpenAPI (doc : JsonV) : Except String (List Endpoint) :=
  if jsTruthy doc then
    match openapiIsV3 doc with
    | .error e => .error e
    | .ok isV3 => parsePaths isV3 (pathsValue doc) (jsKeysNN (pathsValue doc))
  else .ok []

mutual

/-- JavaScript `ToString` as used by template literals: strings unchanged,
numbers printed, `null`/`true`/`false` spelled out, arrays joined with
commas (null elements as empty), objects as `[object Object]`. -/
def jsToString : JsonV → String
  | .null => "null"
  | .bool b => cond b ("true") ("false")
  | .num n => toString n
  | .str s => s
  | .arr xs => String.intercalate (",") (jsToStringElems xs)
  | .obj _ => "[object Object]"

/-- Stringify array elements for `Array.prototype.toString`. -/
def jsToStringElems : List JsonV → List String
  | [] => []
  | v :: r =>
      (match v with
       | .null => ""
       | x => jsToString x) :: jsToStringElems r

end

/-- The `.length` property: arrays and strings have one, objects may carry
one as an own field, primitives have none (`undefined`). -/
def jsLength : JsonV → Option JsonV
  | .arr xs => some (.num (Int.ofNat xs.length))
  | .str s => some (.num (Int.ofNat s.length))
  | .obj fs => jsGet (.obj fs) ("length")
  | _ => none

/-- The run-time-substitution placeholder for the whole base URL. -/
def phBaseUrl : String := "$\x7bBASE_URL\x7d"

/-- The protocol placeholder token. -/
def phProtocol : String := "$\x7bPROTOCOL\x7d"

/-- The server-name placeholder token. -/
def phServerName : String := "$\x7bSERVER_NAME\x7d"

/-- The port placeholder token. -/
def phPort : String := "$\x7bPORT\x7d"

/-- The branch condition `doc.servers?.length` of `detectBaseUrl`, as a
truthiness test: false for absent/null `servers`, for an empty array, and
for any value without a truthy `length`. -/
def serversLenTruthy (doc : JsonV) : Bool :=
  match jsGet doc ("servers") with
  | none => false
  | some .null => false
  | some s =>
      match jsLength s with
      | some lv => jsTruthy lv
      | none => false

/-- The base-url detector `detectBaseUrl` of the source.  `none` plays the
role of `undefined` (the body returning `doc.servers[0].url` when that field
is absent); an exception inside the body is caught and becomes `null`. -/
def detectBaseUrl (doc : JsonV) : Option JsonV :=
  if serversLenTruthy doc then
    match jsGet doc ("servers") with
    | some s =>
        match jsGet s ("0") with
        | none => some .null
        | some .null => some .null
        | some e0 => jsGet e0 ("url")
    | none => some .null
  else
    match jsGet doc ("host") with
    | some h =>
        if jsTruthy h then
          let scheme :=
            match jsGet doc ("schemes") with
            | none => JsonV.str ("http")
            | some .null => JsonV.str ("http")
            | some sch => jsCoalesce (jsGet sch ("0")) (.str ("http"))
          let bp := jsCoalesce (jsGet doc ("basePath")) (.str (""))
          some (.str (jsToString scheme ++ "://" ++ jsToString h ++ jsToString bp))
        else some .null
    | none => some .null

/-- The caller-side resolution `baseUrlOverride || detectBaseUrl(swagger) ||
"$\x7bBASE_URL\x7d"` from `buildJmxAndDownload`. -/
def resolveBaseUrl (override : String) (doc : JsonV) : JsonV :=
  if override != "" then .str override
  else
    match detectBaseUrl doc with
    | some v => if jsTruthy v then v else .str phBaseUrl
    | none => .str phBaseUrl

/-- The components the source reads off a parsed `URL` object. -/
structure URLParts : Type where
  protocol : String
  hostname : String
  port : String
  pathname : String

/-- Scheme characters per the URL standard. -/
def isSchemeChar (c : Char) : Bool :=
  c.isAlpha || c.isDigit || c == '+' || c == '-' || c == '.'

/-- Split a character list around its last colon, if any. -/
def splitAtLastColon (l : List Char) : Option (List Char × List Char) :=
  let sp := l.reverse.span (fun c => !(c == ':'))
  match sp.2 with
  | [] => none
  | _ :: revBefore => some (revBefore.reverse, sp.1.reverse)

/-- Default-port normalization of the URL standard: a parsed `URL` reports
`port = ""` when the port equals the scheme's default. -/
def normalizePort (scheme : String) (n : Nat) : String :=
  if (scheme == "https" && n == 443) || (scheme == "http" && n == 80) then ("")
  else toString n

/-- Modelled from the spec: "standard URL parsing" — the `new URL` platform
builtin used by `splitBaseUrl` and absent from src/.  Accepts
`scheme://host[:port][/path][?query][#frag]` with a letter-led scheme,
lowercases scheme and host, requires a nonempty host and an all-digit (or
empty) port, normalizes a default port to `""` and defaults the path to
`/`; anything else (no scheme, a placeholder token, `"not a url"`) fails
like the `URL` constructor throwing. -/
def urlParseModel (s : String) : Option URLParts :=
  let cs := s.data
  let scheme := cs.takeWhile isSchemeChar
  let rest := cs.drop scheme.length
  match scheme with
  | [] => none
  | c0 :: _ =>
      if c0.isAlpha then
        match rest with
        | ':' :: '/' :: '/' :: rest2 =>
            let auth := rest2.takeWhile (fun c => !(c == '/') && !(c == '?') && !(c == '#'))
            let pathrest := rest2.drop auth.length
            if auth.isEmpty then none
            else
              let schemeL := strLower ⟨scheme⟩
              let pstart := pathrest.takeWhile (fun c => !(c == '?') && !(c == '#'))
              let pathname := if pstart.isEmpty then ("/") else (⟨pstart⟩ : String)
              match splitAtLastColon auth with
              | none =>
                  some ⟨schemeL ++ ":", strLower ⟨auth⟩, "", pathname⟩
              | some (h, p) =>
                  if h.isEmpty then none
                  else if p.all Char.isDigit then
                    let port :=
                      if p.isEmpty then ("")
                      else normalizePort schemeL ((natOfDigitsAux p 0).getD 0)
                    some ⟨schemeL ++ ":", strLower ⟨h⟩, port, pathname⟩
                  else none
        | _ => none
      else none

/-- Remove the first colon of a string, as `protocol.replace(":", "")`
does with a string pattern (first occurrence only). -/
def removeFirstColonLC : List Char → List Char
  | [] => []
  | c :: r => if c == ':' then r else c :: removeFirstColonLC r

/-- String wrapper of `removeFirstColonLC`. -/
def removeFirstColon (s : String) : String :=
  ⟨removeFirstColonLC s.data⟩

/-- The `{protocol, host, port}` triple of `splitBaseUrl`. -/
structure BaseTriple : Type where
  protocol : String
  host : String
  port : String

/-- The splitter `splitBaseUrl` of the source: on a parse success, the
protocol without its colon, the hostname, and the explicit port or the
scheme default (`443` for https, else `80`); on parse failure, the three
placeholder tokens. -/
def splitBaseUrl (url : String) : BaseTriple :=
  match urlParseModel url with
  | some u =>
      let protocol := removeFirstColon u.protocol
      ⟨protocol, u.hostname,
        if u.port != "" then u.port
        else if protocol == "https" then ("443") else ("80")⟩
  | none => ⟨phProtocol, phServerName, phPort⟩

/-- One common-header row, as typed in the source. -/
structure Header : Type where
  key : String
  value : String

/-- The argument record `generateJMX` receives. -/
structure GenConfig : Type where
  title : String
  baseUrl : String
  threads : Int
  rampTime : Int
  duration : Int
  endpoints : List Endpoint
  commonHeaders : List Header

/-- One emitted line, with the structural `hashTree` markers distinguished
from ordinary text at generation time (their rendered text is exactly what
the source pushes). -/
inductive JLine : Type where
  | text : String → JLine
  | htOpen : JLine
  | htClose : JLine
  | htLeaf : JLine

/-- Rendered text of a line. -/
def jlineStr : JLine → String
  | .text s => s
  | .htOpen => "<hashTree>"
  | .htClose => "</hashTree>"
  | .htLeaf => "<hashTree />"

/-- Escape one character for XML, per the `escapeXml` switch. -/
def escapeChar (c : Char) : String :=
  if c = '<' then ("&lt;")
  else if c = '>' then ("&gt;")
  else if c = '&' then ("&amp;")
  else if c = Char.ofNat 39 then ("&apos;")
  else if c = Char.ofNat 34 then ("&quot;")
  else String.singleton c

/-- The `escapeXml` of the source on strings: the global regex replace
rebuilds the string character by character, substituting the five
metacharacters (its `null` guard never fires at the typed call sites
modelled here). -/
def escapeXml (s : String) : String :=
  ⟨s.data.flatMap (fun c => (escapeChar c).data)⟩

/-- The four lines pushed for one retained common header. -/
def headerBlock (h : Header) : List String :=
  [ "<elementProp name=\x22" ++ escapeXml h.key ++ "\x22 elementType=\x22Header\x22>",
    "<stringProp name=\x22Header.name\x22>" ++ escapeXml h.key ++ "</stringProp>",
    "<stringProp name=\x22Header.value\x22>" ++ escapeXml h.value ++ "</stringProp>",
    "</elementProp>" ]

/-- Lines pushed for one common-header entry: skipped when the key is blank
after trimming, else the four-line block. -/
def headerEntryLines (h : Header) : List String :=
  if strTrim h.key == "" then [] else headerBlock h

/-- The five lines of one user-defined-variable block. -/
def argumentLines (name value : String) : List String :=
  [ "<elementProp name=\x22" ++ name ++ "\x22 elementType=\x22Argument\x22>",
    "<stringProp name=\x22Argument.name\x22>" ++ name ++ "</stringProp>",
    "<stringProp name=\x22Argument.value\x22>" ++ value ++ "</stringProp>",
    "<stringProp name=\x22Argument.metadata\x22>=</stringProp>",
    "</elementProp>" ]

/-- The per-endpoint block of `generateJMX`: sampler node, its children
group, the header manager with the injected common headers, the empty
children marker, and the closing of the children group. -/
def samplerJL (hs : List Header) (ep : Endpoint) : List JLine :=
  ([ "<HTTPSamplerProxy guiclass=\x22HttpTestSampleGui\x22 testclass=\x22HTTPSamplerProxy\x22 testname=\x22"
       ++ escapeXml (ep.method ++ " " ++ ep.path) ++ "\x22 enabled=\x22true\x22>",
     "<boolProp name=\x22HTTPSampler.postBodyRaw\x22>true</boolProp>",
     "<elementProp name=\x22HTTPsampler.Arguments\x22 elementType=\x22Arguments\x22>",
     "<collectionProp name=\x22Arguments.arguments\x22></collectionProp>",
     "</elementProp>",
     "<stringProp name=\x22HTTPSampler.domain\x22>" ++ phServerName ++ "</stringProp>",
     "<stringProp name=\x22HTTPSampler.port\x22>" ++ phPort ++ "</stringProp>",
     "<stringProp name=\x22HTTPSampler.protocol\x22>" ++ phProtocol ++ "</stringProp>",
     "<stringProp name=\x22HTTPSampler.path\x22>" ++ escapeXml ep.path ++ "</stringProp>",
     "<stringProp name=\x22HTTPSampler.method\x22>" ++ escapeXml ep.method ++ "</stringProp>",
     "<boolProp name=\x22HTTPSampler.follow_redirects\x22>true</boolProp>",
     "<boolProp name=\x22HTTPSampler.auto_redirects\x22>false</boolProp>",
     "<boolProp name=\x22HTTPSampler.use_keepalive\x22>true</boolProp>",
     "<boolProp name=\x22HTTPSampler.DO_MULTIPART_POST\x22>false</boolProp>",
     "</HTTPSamplerProxy>" ].map JLine.text)
  ++ [JLine.htOpen]
  ++ ([ "<HeaderManager guiclass=\x22HeaderPanel\x22 testclass=\x22HeaderManager\x22 testname=\x22HTTP Header Manager\x22 enabled=\x22true\x22>",
        "<collectionProp name=\x22HeaderManager.headers\x22>" ].map JLine.text)
  ++ (hs.flatMap headerEntryLines).map JLine.text
  ++ ([ "</collectionProp>", "</HeaderManager>" ].map JLine.text)
  ++ [JLine.htLeaf, JLine.htClose]

/-- The single multi-line `ResultCollector` push, verbatim (indentation is
part of the template literal in the source). -/
def resultCollectorBlock : String :=
  String.intercalate ("\n")
    [ "<ResultCollector guiclass=\x22ViewResultsFullVisualizer\x22 testclass=\x22ResultCollector\x22 testname=\x22View Results Tree\x22 enabled=\x22true\x22>",
      "            <boolProp name=\x22ResultCollector.error_logging\x22>false</boolProp>",
      "            <objProp>",
      "                <name>saveConfig</name>",
      "                <value class=\x22SampleSaveConfiguration\x22>",
      "                    <time>true</time>",
      "                    <latency>true</latency>",
      "                    <timestamp>true</timestamp>",
      "                    <success>true</success>",
      "                    <label>true</label>",
      "                    <code>true</code>",
      "                    <message>true</message>",
      "                    <threadName>true</threadName>",
      "                    <dataType>true</dataType>",
      "                    <encoding>true</encoding>",
      "                    <assertions>true</assertions>",
      "                    <subresults>true</subresults>",
      "                    <responseData>false</responseData>",
      "                    <samplerData>false</samplerData>",
      "                    <xml>true</xml>",
      "                    <fieldNames>true</fieldNames>",
      "                    <responseHeaders>false</responseHeaders>",
      "                    <requestHeaders>false</requestHeaders>",
      "                    <responseDataOnError>false</responseDataOnError>",
      "                    <saveAssertionResultsFailureMessage>true</saveAssertionResultsFailureMessage>",
      "                    <assertionsResultsToSave>0</assertionsResultsToSave>",
      "                    <bytes>true</bytes>",
      "                    <sentBytes>true</sentBytes>",
      "                    <url>true</url>",
      "                    <threadCounts>true</threadCounts>",
      "                    <idleTime>true</idleTime>",
      "                    <connectTime>true</connectTime>",
      "                </value>",
      "            </objProp>",
      "            <stringProp name=\x22filename\x22></stringProp>",
      "        </ResultCollector>" ]

/-- The effective base-url value inside `generateJMX`:
`baseUrl || "$\x7bBASE_URL\x7d"`. -/
def varBaseUrl (cfg : GenConfig) : String :=
  if cfg.baseUrl == "" then phBaseUrl else cfg.baseUrl

/-- The escaped test-plan title: `escapeXml(title || "Test Plan")`. -/
def testPlanName (cfg : GenConfig) : String :=
  escapeXml (if cfg.title == "" then ("Test Plan") else cfg.title)

/-- The full emission sequence of `generateJMX`, line for line in push
order, with `hashTree` markers tagged. -/
def generateJMXJL (cfg : GenConfig) : List JLine :=
  let t := splitBaseUrl (varBaseUrl cfg)
  ([ "<?xml version=\x221.0\x22 encoding=\x22UTF-8\x22?>",
     "<jmeterTestPlan version=\x221.2\x22 properties=\x225.0\x22 jmeter=\x225.6.3\x22>" ].map JLine.text)
  ++ [JLine.htOpen]
  ++ (([ "<TestPlan guiclass=\x22TestPlanGui\x22 testclass=\x22TestPlan\x22 testname=\x22"
           ++ testPlanName cfg ++ "\x22 enabled=\x22true\x22>",
         "<stringProp name=\x22TestPlan.comments\x22></stringProp>",
         "<boolProp name=\x22TestPlan.functional_mode\x22>false</boolProp>",
         "<boolProp name=\x22TestPlan.tearDown_on_shutdown\x22>true</boolProp>",
         "<boolProp name=\x22TestPlan.serialize_threadgroups\x22>false</boolProp>",
         "<elementProp name=\x22TestPlan.user_defined_variables\x22 elementType=\x22Arguments\x22>",
         "<collectionProp name=\x22Arguments.arguments\x22>" ]
       ++ argumentLines ("BASE_URL") (escapeXml (varBaseUrl cfg))
       ++ argumentLines ("PROTOCOL") (escapeXml t.protocol)
       ++ argumentLines ("SERVER_NAME") (escapeXml t.host)
       ++ argumentLines ("PORT") (escapeXml t.port)
       ++ [ "</collectionProp>",
            "</elementProp>",
            "<stringProp name=\x22TestPlan.user_define_classpath\x22></stringProp>",
            "</TestPlan>" ]).map JLine.text)
  ++ [JLine.htOpen]
  ++ ([ "<ThreadGroup guiclass=\x22ThreadGroupGui\x22 testclass=\x22ThreadGroup\x22 enabled=\x22true\x22 testname=\x22Thread Group\x22>",
        "<stringProp name=\x22ThreadGroup.on_sample_error\x22>continue</stringProp>",
        "<elementProp name=\x22ThreadGroup.main_controller\x22 elementType=\x22LoopController\x22>",
        "<boolProp name=\x22LoopController.continue_forever\x22>false</boolProp>",
        "<stringProp name=\x22LoopController.loops\x22>-1</stringProp>",
        "</elementProp>",
        "<stringProp name=\x22ThreadGroup.num_threads\x22>" ++ toString cfg.threads ++ "</stringProp>",
        "<stringProp name=\x22ThreadGroup.ramp_time\x22>" ++ toString cfg.rampTime ++ "</stringProp>",
        "<boolProp name=\x22ThreadGroup.scheduler\x22>true</boolProp>",
        "<stringProp name=\x22ThreadGroup.duration\x22>" ++ toString cfg.duration ++ "</stringProp>",
        "<stringProp name=\x22ThreadGroup.delay\x22></stringProp>",
        "</ThreadGroup>" ].map JLine.text)
  ++ [JLine.htOpen]
  ++ cfg.endpoints.flatMap (samplerJL cfg.commonHeaders)
  ++ [JLine.text resultCollectorBlock, JLine.htLeaf, JLine.htClose, JLine.htClose, JLine.htClose,
      JLine.text ("</jmeterTestPlan>")]

/-- The emitted lines as strings. -/
def generateJMXLines (cfg : GenConfig) : List String :=
  (generateJMXJL cfg).map jlineStr

/-- The serializer `generateJMX`: all pushed lines joined with newlines. -/
def generateJMX (cfg : GenConfig) : String :=
  String.intercalate ("\n") (generateJMXLines cfg)

/-- Whether the document's dialect is v3: `openapi` present as a string
starting with `3` (on any other present non-null value the extractor
raises, so only this test matters on normal returns). -/
def vers3 (doc : JsonV) : Bool :=
  match jsGet doc ("openapi") with
  | some (.str s) => strStartsWith s ("3")
  | _ => false

/-- The retained `(path, method)` pairs contributed by one path entry. -/
def retainedPairsOfPath (paths : JsonV) (p : String) : List (String × String) :=
  match jsGet paths p with
  | some obj => ((jsKeysNN obj).filter (fun k => (retainMethod obj k).isSome)).map (fun k => (p, k))
  | none => []

/-- All retained `(path, method)` pairs of a document, in iteration order:
the specification-level count/order the extractor is claimed to realize. -/
def retainedPairs (doc : JsonV) : List (String × String) :=
  if jsTruthy doc then
    (jsKeysNN (pathsValue doc)).flatMap (retainedPairsOfPath (pathsValue doc))
  else []

/-- The per-operation safety condition: `(m.parameters ?? []).slice()` only
succeeds when the coalesced value is an array or a string. -/
def paramsOk (m : JsonV) : Bool :=
  match jsCoalesce (jsGet m ("parameters")) (.arr []) with
  | .arr _ => true
  | .str _ => true
  | _ => false

/-- Safety of one method key of a path object. -/
def methodSafe (obj : JsonV) (k : String) : Bool :=
  match retainMethod obj k with
  | none => true
  | some m => paramsOk m

/-- Safety of one path entry: its value must not be `null`/absent, and each
retained method entry must have sliceable parameters. -/
def pathSafe (paths : JsonV) (p : String) : Bool :=
  match jsGet paths p with
  | none => false
  | some .null => false
  | some obj => (jsKeysNN obj).all (methodSafe obj)

/-- The conditions under which the extractor cannot raise. -/
def extractorSafe (doc : JsonV) : Bool :=
  !jsTruthy doc
    || ((openapiIsV3 doc).isOk && (jsKeysNN (pathsValue doc)).all (pathSafe (pathsValue doc)))

/-- A successful `buildEndpoint` fixes every descriptor field in terms of
the retained operation object. -/
theorem buildEndpoint_ok {v : Bool} {p k : String} {m : JsonV} {e : Endpoint}
    (h : buildEndpoint v p k m = .ok e) :
    e.path = p ∧ e.method = strUpper k ∧ e.rawOperation = m
    ∧ e.summary = jsOr (jsGet m ("summary")) (jsGet m ("operationId"))
    ∧ e.tags = jsCoalesce (jsGet m ("tags")) (.arr [])
    ∧ e.requestBody = (if v then jsCoalesce (jsGet m ("requestBody")) JsonV.null else JsonV.null) := by
  unfold buildEndpoint at h
  split at h
  · exact Except.noConfusion h
  · injection h with h1
    subst h1
    exact ⟨rfl, rfl, rfl, rfl, rfl, rfl⟩

/-- The per-descriptor field facts carried through the loops. -/
def fieldFacts (v : Bool) (e : Endpoint) : Prop :=
  e.summary = jsOr (jsGet e.rawOperation ("summary")) (jsGet e.rawOperation ("operationId"))
  ∧ e.tags = jsCoalesce (jsGet e.rawOperation ("tags")) (.arr [])
  ∧ e.requestBody = (if v then jsCoalesce (jsGet e.rawOperation ("requestBody")) JsonV.null else JsonV.null)

/-- Characterization of the inner method loop on a normal return: the
descriptors are exactly the retained method keys, in order, with the path
carried along and the method uppercased, and every field fact holds. -/
theorem parseMethods_ok (v : Bool) (p : String) (obj : JsonV) :
    ∀ (ks : List String) (es : List Endpoint), parseMethods v p obj ks = .ok es →
    (es.map (fun e => (e.path, e.method)) =
      (ks.filter (fun k => (retainMethod obj k).isSome)).map (fun k => (p, strUpper k)))
    ∧ ∀ e ∈ es, fieldFacts v e := by
  intro ks
  induction ks with
  | nil =>
      intro es h
      simp only [parseMethods] at h
      injection h with h1
      subst h1
      exact ⟨rfl, by intro e he; cases he⟩
  | cons k ks ih =>
      intro es h
      simp only [parseMethods] at h
      split at h
      · rename_i hr
        obtain ⟨h1, h2⟩ := ih es h
        refine ⟨?_, h2⟩
        have hf : List.filter (fun k => (retainMethod obj k).isSome) (k :: ks)
            = List.filter (fun k => (retainMethod obj k).isSome) ks := by
          simp [List.filter_cons, hr]
        rw [hf]
        exact h1
      · rename_i m hr
        split at h
        · exact Except.noConfusion h
        · rename_i e hb
          split at h
          · exact Except.noConfusion h
          · rename_i es' hp
            injection h with h1
            subst h1
            obtain ⟨m1, m2⟩ := ih es' hp
            obtain ⟨b1, b2, b3, b4, b5, b6⟩ := buildEndpoint_ok hb
            constructor
            · have hf : List.filter (fun k => (retainMethod obj k).isSome) (k :: ks)
                  = k :: List.filter (fun k => (retainMethod obj k).isSome) ks := by
                simp [List.filter_cons, hr]
              rw [hf, List.map_cons, List.map_cons, b1, b2, m1]
            · intro e' he'
              rcases List.mem_cons.mp he' with h' | h'
              · subst h'
                exact ⟨by rw [b3]; exact b4, by rw [b3]; exact b5, by rw [b3]; exact b6⟩
              · exact m2 e' h'

/-- Characterization of the outer path loop on a normal return. -/
theorem parsePaths_ok (v : Bool) (paths : JsonV) :
    ∀ (ps : List String) (es : List Endpoint), parsePaths v paths ps = .ok es →
    (es.map (fun e => (e.path, e.method)) =
      (ps.flatMap (retainedPairsOfPath paths)).map (fun q => (q.1, strUpper q.2)))
    ∧ ∀ e ∈ es, fieldFacts v e := by
  intro ps
  induction ps with
  | nil =>
      intro es h
      simp only [parsePaths] at h
      injection h with h1
      subst h1
      exact ⟨rfl, by intro e he; cases he⟩
  | cons p ps ih =>
      intro es h
      simp only [parsePaths] at h
      split at h
      · exact Except.noConfusion h
      · exact Except.noConfusion h
      · rename_i obj hnn hg
        split at h
        · exact Except.noConfusion h
        · rename_i es₁ hm
          split at h
          · exact Except.noConfusion h
          · rename_i es₂ hp
            injection h with h1
            subst h1
            obtain ⟨m1, m2⟩ := parseMethods_ok v p obj (jsKeysNN obj) es₁ hm
            obtain ⟨q1, q2⟩ := ih es₂ hp
            constructor
            · have hrp : retainedPairsOfPath paths p
                  = ((jsKeysNN obj).filter (fun k => (retainMethod obj k).isSome)).map (fun k => (p, k)) := by
                unfold retainedPairsOfPath
                rw [hg]

              rw [List.flatMap_cons, List.map_append, List.map_append, m1, q1, hrp, List.map_map]
              rfl
            · intro e he
              rcases List.mem_append.mp he with h' | h'
              · exact m2 e h'
              · exact q2 e h'

/-- `openapiIsV3` agrees with `vers3` whenever it returns normally. -/
theorem openapiIsV3_ok {doc : JsonV} {b : Bool} (h : openapiIsV3 doc = .ok b) :
    b = vers3 doc := by
  unfold openapiIsV3 at h
  unfold vers3
  cases hg : jsGet doc ("openapi") with
  | none => rw [hg] at h; injection h with h1; subst h1; rfl
  | some v =>
      rw [hg] at h
      cases v with
      | null => injection h with h1; subst h1; rfl
      | str s => injection h with h1; subst h1; rfl
      | bool b' => exact Except.noConfusion h
      | num n => exact Except.noConfusion h
      | arr xs => exact Except.noConfusion h
      | obj fs => exact Except.noConfusion h

/-- Characterization of `parseOpenAPI` on a normal return: the descriptor
list projects exactly to the retained pairs with uppercased methods, and
every descriptor satisfies the field facts for the document's dialect. -/
theorem parseOpenAPI_ok {doc : JsonV} {es : List Endpoint}
    (h : parseOpenAPI doc = .ok es) :
    (es.map (fun e => (e.path, e.method)) =
      (retainedPairs doc).map (fun q => (q.1, strUpper q.2)))
    ∧ ∀ e ∈ es, fieldFacts (vers3 doc) e := by
  unfold parseOpenAPI at h
  by_cases ht : jsTruthy doc
  · rw [if_pos ht] at h
    cases ho : openapiIsV3 doc with
    | error s => rw [ho] at h; exact Except.noConfusion h
    | ok b =>
        rw [ho] at h
        obtain ⟨h1, h2⟩ := parsePaths_ok b (pathsValue doc) (jsKeysNN (pathsValue doc)) es h
        rw [openapiIsV3_ok ho] at h2
        refine ⟨?_, h2⟩
        rw [retainedPairs, if_pos ht]
        exact h1
  · rw [if_neg ht] at h
    injection h with h1
    subst h1
    exact ⟨by rw [retainedPairs, if_neg ht]; rfl, by intro e he; cases he⟩

/-- Sliceable parameters make `buildEndpoint` succeed. -/
theorem buildEndpoint_isOk {v : Bool} {p k : String} {m : JsonV} (h : paramsOk m = true) :
    ∃ e, buildEndpoint v p k m = .ok e := by
  unfold paramsOk at h
  unfold buildEndpoint
  split at h
  · rename_i xs heq
    rw [heq]
    exact ⟨_, rfl⟩
  · rename_i s heq
    rw [heq]
    exact ⟨_, rfl⟩
  · exact Bool.noConfusion h

/-- A method loop over all-safe keys returns normally. -/
theorem parseMethods_isOk (v : Bool) (p : String) (obj : JsonV) :
    ∀ ks : List String, ks.all (methodSafe obj) = true →
    ∃ es, parseMethods v p obj ks = .ok es := by
  intro ks
  induction ks with
  | nil => intro _; exact ⟨[], rfl⟩
  | cons k ks ih =>
      intro hall
      rw [List.all_cons, Bool.and_eq_true] at hall
      obtain ⟨h1, h2⟩ := hall
      obtain ⟨es, hes⟩ := ih h2
      cases hr : retainMethod obj k with
      | none =>
          refine ⟨es, ?_⟩
          simp only [parseMethods, hr, hes]
      | some m =>
          unfold methodSafe at h1
          rw [hr] at h1
          have h1' : paramsOk m = true := h1
          obtain ⟨e, he⟩ := buildEndpoint_isOk (v := v) (p := p) (k := k) h1'
          refine ⟨e :: es, ?_⟩
          simp only [parseMethods, hr, he, hes]

/-- A path loop over all-safe entries returns normally. -/
theorem parsePaths_isOk (v : Bool) (paths : JsonV) :
    ∀ ps : List String, ps.all (pathSafe paths) = true →
    ∃ es, parsePaths v paths ps = .ok es := by
  intro ps
  induction ps with
  | nil => intro _; exact ⟨[], rfl⟩
  | cons p ps ih =>
      intro hall
      rw [List.all_cons, Bool.and_eq_true] at hall
      obtain ⟨h1, h2⟩ := hall
      unfold pathSafe at h1
      split at h1
      · exact Bool.noConfusion h1
      · exact Bool.noConfusion h1
      · rename_i obj hnn hg
        obtain ⟨es₁, hm⟩ := parseMethods_isOk v p obj (jsKeysNN obj) h1
        obtain ⟨es₂, hp⟩ := ih h2
        refine ⟨es₁ ++ es₂, ?_⟩
        simp only [parsePaths, hg, hm, hp]

/-- Concrete document: a well-formed v3 document with one operation
carrying a request body. -/
def exDocV3 : JsonV :=
  .obj [("openapi", .str ("3.0.0")),
        ("paths", .obj [("/a", .obj [("get", .obj [("requestBody", .obj [("content", .null)])])])])]

/-- The descriptor the extractor produces for `exDocV3`. -/
def exEpV3 : Endpoint :=
  ⟨"/a", "GET", none, none, .arr [], .obj [("content", .null)], .arr [],
    .obj [("requestBody", .obj [("content", .null)])]⟩

/-- Concrete document whose only path entry has value `null`. -/
def exDocPathNull : JsonV := .obj [("paths", .obj [("/a", .null)])]

/-- Concrete document whose `openapi` field is the number 3. -/
def exDocOpenapiNum : JsonV := .obj [("openapi", .num 3)]

/-- Concrete document with a present-but-empty summary and an operation id. -/
def exDocSummary : JsonV :=
  .obj [("paths", .obj [("/a", .obj [("get",
    .obj [("summary", .str ("")), ("operationId", .str ("op"))])])])]

/-- The descriptor the extractor produces for `exDocSummary`. -/
def exEpSummary : Endpoint :=
  ⟨"/a", "GET", some (.str ("op")), none, .arr [], .null, .arr [],
    .obj [("summary", .str ("")), ("operationId", .str ("op"))]⟩

/-- C1 (amended): the extractor terminates normally and returns a
descriptor sequence on every input on which none of its unguarded
accesses raises — i.e. whenever each `paths` entry value is non-null and
present, `openapi` (if present and non-null) is a string, and each retained
operation's coalesced `parameters` value is sliceable.  (As stated the
claim is false: see the counterexample, where a `paths` entry whose value
is null makes `Object.keys` raise a TypeError.) -/
theorem C1_extractor_total_on_safe_inputs :
    ∀ doc : JsonV, extractorSafe doc = true → ∃ es, parseOpenAPI doc = .ok es := by
  intro doc h
  unfold extractorSafe at h
  by_cases ht : jsTruthy doc = true
  · rw [ht] at h
    simp only [Bool.not_true, Bool.false_or, Bool.and_eq_true] at h
    obtain ⟨h1, h2⟩ := h
    cases ho : openapiIsV3 doc with
    | error s => rw [ho] at h1; simp [Except.isOk, Except.toBool] at h1
    | ok b =>
        obtain ⟨es, hes⟩ := parsePaths_isOk b (pathsValue doc) (jsKeysNN (pathsValue doc)) h2
        refine ⟨es, ?_⟩
        simp only [parseOpenAPI, ht, if_true, ho, hes]
  · refine ⟨[], ?_⟩
    unfold parseOpenAPI
    rw [if_neg ht]

/-- C1 witness: a concrete safe document on which the amended theorem
yields a normal return. -/
theorem C1_witness :
    extractorSafe exDocV3 = true ∧ ∃ es, parseOpenAPI exDocV3 = .ok es :=
  ⟨rfl, C1_extractor_total_on_safe_inputs exDocV3 rfl⟩

/-- C1 counterexample: on a document with a `paths` entry whose value is
null, the extractor raises (models `Object.keys(null)` throwing) instead
of returning a descriptor sequence, contradicting the claim as stated. -/
theorem C1_counterexample :
    parseOpenAPI exDocPathNull = .error keysErr
    ∧ (parseOpenAPI exDocPathNull).isOk = false :=
  ⟨rfl, rfl⟩

/-- C2 (amended): on every normal return the descriptors project exactly,
in order, to the retained `(path, method)` pairs (method uppercased); a
falsy document returns the empty sequence; and a document whose dialect
test succeeds and whose `paths` value has no iterable keys returns the
empty sequence.  (As stated the claim is false: a document with absent
`paths` but a non-string `openapi` raises instead of returning empty — see
the counterexample; iteration order is JavaScript own-property order,
integer-like keys first, rather than pure insertion order.) -/
theorem C2_extractor_characterization :
    (∀ (doc : JsonV) (es : List Endpoint), parseOpenAPI doc = .ok es →
      es.map (fun e => (e.path, e.method)) =
        (retainedPairs doc).map (fun q => (q.1, strUpper q.2)))
    ∧ (∀ doc : JsonV, jsTruthy doc = false → parseOpenAPI doc = .ok [])
    ∧ (∀ (doc : JsonV) (b : Bool), openapiIsV3 doc = .ok b →
        jsKeysNN (pathsValue doc) = [] → parseOpenAPI doc = .ok []) := by
  refine ⟨?_, ?_, ?_⟩
  · intro doc es h
    exact (parseOpenAPI_ok h).1
  · intro doc ht
    unfold parseOpenAPI
    rw [if_neg ?_]
    intro hcon
    rw [ht] at hcon
    exact Bool.noConfusion hcon
  · intro doc b ho hk
    by_cases ht : jsTruthy doc = true
    · simp only [parseOpenAPI, ht, if_true, ho, hk, parsePaths]
    · unfold parseOpenAPI
      rw [if_neg ht]

/-- C2 witness: the amended theorem applied to a concrete document with
one retained pair, to a falsy document, and to an empty-paths document. -/
theorem C2_witness :
    ([exEpV3].map (fun e => (e.path, e.method)) =
      (retainedPairs exDocV3).map (fun q => (q.1, strUpper q.2)))
    ∧ parseOpenAPI JsonV.null = .ok []
    ∧ parseOpenAPI (.obj []) = .ok [] :=
  ⟨C2_extractor_characterization.1 exDocV3 [exEpV3] rfl,
   C2_extractor_characterization.2.1 JsonV.null rfl,
   C2_extractor_characterization.2.2 (.obj []) false rfl rfl⟩

/-- C2 counterexample: a document with absent `paths` (so the claim
demands the empty sequence) whose numeric `openapi` makes the extractor
raise before ever reaching `paths`. -/
theorem C2_counterexample :
    parseOpenAPI exDocOpenapiNum
      = .error ("TypeError: doc.openapi.startsWith is not a function")
    ∧ (parseOpenAPI exDocOpenapiNum).isOk = false :=
  ⟨rfl, rfl⟩

/-- C8: on every normal return, a v3 document passes `requestBody` through
unchanged when present (explicit `null` stays absent), and any document
whose `openapi` is absent or does not start with `"3"` leaves every
descriptor's `requestBody` absent (modelled as `null`, exactly the value
the source stores). -/
theorem C8_requestBody_dialect :
    ∀ (doc : JsonV) (es : List Endpoint), parseOpenAPI doc = .ok es → ∀ e ∈ es,
      (vers3 doc = true →
        ∀ v, jsGet e.rawOperation ("requestBody") = some v → e.requestBody = v)
      ∧ (vers3 doc = true → jsGet e.rawOperation ("requestBody") = none →
          e.requestBody = JsonV.null)
      ∧ (vers3 doc = false → e.requestBody = JsonV.null) := by
  intro doc es h e he
  obtain ⟨-, hf⟩ := parseOpenAPI_ok h
  obtain ⟨-, -, hrb⟩ := hf e he
  refine ⟨?_, ?_, ?_⟩
  · intro hv v hg
    rw [hv, if_pos rfl, hg] at hrb
    cases v with
    | null => exact hrb
    | bool b => exact hrb
    | num n => exact hrb
    | str s => exact hrb
    | arr xs => exact hrb
    | obj fs => exact hrb
  · intro hv hg
    rw [hv, if_pos rfl, hg] at hrb
    exact hrb
  · intro hv
    rw [hv] at hrb
    simpa using hrb

/-- C8 witness: the theorem applied to a concrete v3 document whose single
operation carries a request body, which reaches the descriptor unchanged. -/
theorem C8_witness :
    vers3 exDocV3 = true
    ∧ exEpV3.requestBody = JsonV.obj [("content", JsonV.null)] :=
  ⟨rfl,
   (C8_requestBody_dialect exDocV3 [exEpV3] rfl exEpV3 (List.mem_singleton.mpr rfl)).1
     rfl (JsonV.obj [("content", JsonV.null)]) rfl⟩

/-- C9 (amended): on every normal return the method of each descriptor is
its source key uppercased (via the pair characterization), `summary` is
the operation's summary when truthy, otherwise the operation-identifier
lookup, and `tags` is the operation's tags value when present and
non-null, otherwise the empty array.  (As stated the claim is false: a
present-but-empty summary also falls back to `operationId` — see the
counterexample.) -/
theorem C9_descriptor_fields :
    ∀ (doc : JsonV) (es : List Endpoint), parseOpenAPI doc = .ok es →
      (es.map (fun e => (e.path, e.method)) =
        (retainedPairs doc).map (fun q => (q.1, strUpper q.2)))
      ∧ ∀ e ∈ es,
          e.summary = jsOr (jsGet e.rawOperation ("summary")) (jsGet e.rawOperation ("operationId"))
          ∧ e.tags = jsCoalesce (jsGet e.rawOperation ("tags")) (.arr []) := by
  intro doc es h
  obtain ⟨h1, h2⟩ := parseOpenAPI_ok h
  exact ⟨h1, fun e he => ⟨(h2 e he).1, (h2 e he).2.1⟩⟩

/-- C9 witness: the amended theorem applied to a concrete document. -/
theorem C9_witness :
    ([exEpSummary].map (fun e => (e.path, e.method)) =
      (retainedPairs exDocSummary).map (fun q => (q.1, strUpper q.2)))
    ∧ exEpSummary.summary
        = jsOr (jsGet exEpSummary.rawOperation ("summary"))
            (jsGet exEpSummary.rawOperation ("operationId")) :=
  ⟨(C9_descriptor_fields exDocSummary [exEpSummary] rfl).1,
   ((C9_descriptor_fields exDocSummary [exEpSummary] rfl).2 exEpSummary
     (List.mem_singleton.mpr rfl)).1⟩

/-- C9 counterexample: an operation whose own `summary` is present (the
empty string) yet whose descriptor carries the `operationId` instead,
refuting "summary is the operation's own summary [when present]". -/
theorem C9_counterexample :
    parseOpenAPI exDocSummary = .ok [exEpSummary]
    ∧ jsGet exEpSummary.rawOperation ("summary") = some (.str (""))
    ∧ exEpSummary.summary = some (.str ("op"))
    ∧ ¬ (exEpSummary.summary = some (.str (""))) := by
  refine ⟨rfl, rfl, rfl, ?_⟩
  intro hcon
  have h2 : JsonV.str ("op") = JsonV.str ("") := Option.some.inj hcon
  have h3 : ("op" : String) = "" := JsonV.str.inj h2
  exact absurd h3 (by decide)

/-- A scheme-composed base URL is never the empty string. -/
theorem composedNeEmpty (a b c : String) : ((a ++ "://") ++ b) ++ c ≠ "" := by
  intro hcon
  have hl := congrArg String.length hcon
  rw [String.length_append, String.length_append, String.length_append] at hl
  have h3 : ("://" : String).length = 3 := rfl
  have h0 : ("" : String).length = 0 := rfl
  rw [h3, h0] at hl
  omega

/-- Concrete document carrying a `servers` list. -/
def exDocServers : JsonV :=
  .obj [("servers", .arr [.obj [("url", .str ("https://api.x.com/v1"))]])]

/-- Concrete v2-style document with host, schemes and basePath. -/
def exDocHost : JsonV :=
  .obj [("host", .str ("api.x.com")), ("schemes", .arr [.str ("https")]),
        ("basePath", .str ("/v1"))]

/-- Concrete document with a non-empty `servers` list whose first entry
carries an empty `url`. -/
def exDocServersEmptyUrl : JsonV :=
  .obj [("servers", .arr [.obj [("url", .str (""))]])]

/-- Concrete document with an empty `servers` array and a host. -/
def exDocEmptyServersHost : JsonV :=
  .obj [("servers", .arr []), ("host", .str ("h"))]

/-- C3 (amended): base-URL resolution precedence — a non-empty explicit
override wins; otherwise, when the document's `servers` value has a truthy
`length` (in particular a non-empty array), the first entry's `url` is used
when it is truthy, while a falsy or absent `url` yields the symbolic
placeholder (not the host branch); otherwise (the `servers` length test
failing — absent, null or empty `servers` alike), a truthy `host` composes
scheme://host+basePath with the first scheme or the `http` default; and
with neither, the placeholder results; including the two concrete examples
of the claim.  (As stated the claim is false: when the first server
entry's `url` is the empty string, the code resolves to the placeholder,
not to the first entry's url — see the counterexample.) -/
theorem C3_base_url_precedence :
    (∀ (doc : JsonV) (o : String), o ≠ "" → resolveBaseUrl o doc = .str o)
    ∧ (∀ (doc : JsonV) (fs : List (String × JsonV)) (rest : List JsonV) (u : String),
        jsGet doc ("servers") = some (.arr (.obj fs :: rest)) →
        jsGet (.obj fs) ("url") = some (.str u) → u ≠ "" →
        resolveBaseUrl ("") doc = .str u)
    ∧ (∀ (doc : JsonV) (fs : List (String × JsonV)) (rest : List JsonV) (v : JsonV),
        jsGet doc ("servers") = some (.arr (.obj fs :: rest)) →
        jsGet (.obj fs) ("url") = some v → jsTruthy v = false →
        resolveBaseUrl ("") doc = .str phBaseUrl)
    ∧ (∀ (doc : JsonV) (fs : List (String × JsonV)) (rest : List JsonV),
        jsGet doc ("servers") = some (.arr (.obj fs :: rest)) →
        jsGet (.obj fs) ("url") = none →
        resolveBaseUrl ("") doc = .str phBaseUrl)
    ∧ (∀ (doc : JsonV) (h sc bp : String) (scr : List JsonV),
        serversLenTruthy doc = false →
        jsGet doc ("host") = some (.str h) → h ≠ "" →
        jsGet doc ("schemes") = some (.arr (.str sc :: scr)) →
        jsGet doc ("basePath") = some (.str bp) →
        resolveBaseUrl ("") doc = .str (((sc ++ "://") ++ h) ++ bp))
    ∧ (∀ (doc : JsonV) (h : String),
        serversLenTruthy doc = false →
        jsGet doc ("host") = some (.str h) → h ≠ "" →
        jsGet doc ("schemes") = none →
        jsGet doc ("basePath") = none →
        resolveBaseUrl ("") doc = .str ((("http" ++ "://") ++ h) ++ ""))
    ∧ (∀ doc : JsonV,
        serversLenTruthy doc = false → jsGet doc ("host") = none →
        resolveBaseUrl ("") doc = .str phBaseUrl)
    ∧ resolveBaseUrl ("") exDocServers = .str ("https://api.x.com/v1")
    ∧ resolveBaseUrl ("") exDocHost = .str ("https://api.x.com/v1") := by
  refine ⟨?_, ?_, ?_, ?_, ?_, ?_, ?_, rfl, rfl⟩
  · intro doc o ho
    have hb : (o != "") = true := bne_iff_ne.mpr ho
    unfold resolveBaseUrl
    rw [if_pos hb]
  · intro doc fs rest u hs hu hne
    have h0 : isArrayIndex ("0") = some 0 := rfl
    have hu' : List.lookup ("url") fs = some (JsonV.str u) := hu
    have hb : jsTruthy (.num (Int.ofNat (rest.length + 1))) = true := by
      simp [jsTruthy]
      omega
    have hlt : serversLenTruthy doc = true := by
      simp only [serversLenTruthy, hs, jsLength, List.length_cons]
      exact hb
    have hd : detectBaseUrl doc = some (.str u) := by
      unfold detectBaseUrl
      rw [hlt, if_pos rfl]
      simp only [hs]
      simp only [jsGet, h0, List.get?_cons_zero, hu']
    have ht : jsTruthy (.str u) = true := bne_iff_ne.mpr hne
    unfold resolveBaseUrl
    rw [if_neg (by simp)]
    simp only [hd]
    rw [if_pos ht]
  · intro doc fs rest v hs hu hfalsy
    have h0 : isArrayIndex ("0") = some 0 := rfl
    have hu' : List.lookup ("url") fs = some v := hu
    have hb : jsTruthy (.num (Int.ofNat (rest.length + 1))) = true := by
      simp [jsTruthy]
      omega
    have hlt : serversLenTruthy doc = true := by
      simp only [serversLenTruthy, hs, jsLength, List.length_cons]
      exact hb
    have hd : detectBaseUrl doc = jsGet (.obj fs) ("url") := by
      unfold detectBaseUrl
      rw [hlt, if_pos rfl]
      simp only [hs]
      simp only [jsGet, h0, List.get?_cons_zero]
    rw [hu] at hd
    unfold resolveBaseUrl
    rw [if_neg (by simp)]
    simp only [hd]
    rw [hfalsy]
    rfl
  · intro doc fs rest hs hu
    have h0 : isArrayIndex ("0") = some 0 := rfl
    have hb : jsTruthy (.num (Int.ofNat (rest.length + 1))) = true := by
      simp [jsTruthy]
      omega
    have hlt : serversLenTruthy doc = true := by
      simp only [serversLenTruthy, hs, jsLength, List.length_cons]
      exact hb
    have hd : detectBaseUrl doc = jsGet (.obj fs) ("url") := by
      unfold detectBaseUrl
      rw [hlt, if_pos rfl]
      simp only [hs]
      simp only [jsGet, h0, List.get?_cons_zero]
    rw [hu] at hd
    unfold resolveBaseUrl
    rw [if_neg (by simp)]
    simp only [hd]
  · intro doc h sc bp scr hlf hh hne hsch hbp
    have h0 : isArrayIndex ("0") = some 0 := rfl
    have ht : jsTruthy (.str h) = true := bne_iff_ne.mpr hne
    have hd : detectBaseUrl doc = some (.str (((sc ++ "://") ++ h) ++ bp)) := by
      unfold detectBaseUrl
      rw [hlf]
      rw [if_neg (by simp)]
      simp only [hh]
      rw [if_pos ht]
      simp only [hsch, hbp]
      have hc0 : jsGet (.arr (JsonV.str sc :: scr)) ("0") = some (JsonV.str sc) := by
        simp only [jsGet, h0, List.get?_cons_zero]
      rw [hc0]
      rfl
    have ht2 : jsTruthy (.str (((sc ++ "://") ++ h) ++ bp)) = true :=
      bne_iff_ne.mpr (composedNeEmpty sc h bp)
    unfold resolveBaseUrl
    rw [if_neg (by simp)]
    simp only [hd]
    rw [if_pos ht2]
  · intro doc h hlf hh hne hsch hbp
    have ht : jsTruthy (.str h) = true := bne_iff_ne.mpr hne
    have hd : detectBaseUrl doc = some (.str ((("http" ++ "://") ++ h) ++ "")) := by
      unfold detectBaseUrl
      rw [hlf]
      rw [if_neg (by simp)]
      simp only [hh]
      rw [if_pos ht]
      simp only [hsch, hbp]
      rfl
    have ht2 : jsTruthy (.str ((("http" ++ "://") ++ h) ++ "")) = true :=
      bne_iff_ne.mpr (composedNeEmpty ("http") h (""))
    unfold resolveBaseUrl
    rw [if_neg (by simp)]
    simp only [hd]
    rw [if_pos ht2]
  · intro doc hlf hh
    have hd : detectBaseUrl doc = some .null := by
      unfold detectBaseUrl
      rw [hlf]
      rw [if_neg (by simp)]
      simp only [hh]
    unfold resolveBaseUrl
    rw [if_neg (by simp)]
    simp only [hd]
    rfl

/-- C3 witness: the amended theorem applied at concrete inputs — an
explicit override on a null document, the claim's servers example, and an
empty `servers` array falling through to the host branch. -/
theorem C3_witness :
    ("x" : String) ≠ "" ∧ resolveBaseUrl ("x") JsonV.null = .str ("x")
    ∧ resolveBaseUrl ("") exDocServers = .str ("https://api.x.com/v1")
    ∧ serversLenTruthy exDocEmptyServersHost = false
    ∧ resolveBaseUrl ("") exDocEmptyServersHost = .str ("http://h") :=
  ⟨by decide,
   C3_base_url_precedence.1 JsonV.null ("x") (by decide),
   C3_base_url_precedence.2.1 exDocServers [("url", .str ("https://api.x.com/v1"))] []
     ("https://api.x.com/v1") rfl rfl (by decide),
   rfl,
   C3_base_url_precedence.2.2.2.2.2.1 exDocEmptyServersHost ("h")
     rfl rfl (by decide) rfl rfl⟩

/-- C3 counterexample: a document with a non-empty `servers` list whose
first entry's `url` is the empty string resolves to the placeholder, not
to that (empty) url, refuting the claimed precedence as stated — a falsy
first url falls through the whole `||` chain. -/
theorem C3_counterexample :
    jsGet exDocServersEmptyUrl ("servers")
      = some (.arr [.obj [("url", .str (""))]])
    ∧ resolveBaseUrl ("") exDocServersEmptyUrl = .str phBaseUrl
    ∧ ¬ (resolveBaseUrl ("") exDocServersEmptyUrl = .str ("")) := by
  refine ⟨rfl, rfl, ?_⟩
  intro hcon
  have hcon2 : JsonV.str phBaseUrl = JsonV.str ("") := hcon
  have h2 : phBaseUrl = "" := JsonV.str.inj hcon2
  exact absurd h2 (by decide)

/-- On a parse success the split depends only on protocol, hostname and
port of the parsed URL. -/
theorem splitBaseUrl_parse {s : String} {u : URLParts} (h : urlParseModel s = some u) :
    splitBaseUrl s =
      ⟨removeFirstColon u.protocol, u.hostname,
        if u.port != "" then u.port
        else if removeFirstColon u.protocol == "https" then ("443") else ("80")⟩ := by
  unfold splitBaseUrl
  rw [h]

/-- C4: the split never raises (it is a total function): on a parse
success it yields the protocol without its colon, the hostname, and the
explicit port or the scheme default (443 for https, else 80); on a parse
failure it yields the fixed placeholder triple; with the claim's concrete
examples. -/
theorem C4_split_total_with_fallback :
    (∀ (s : String) (u : URLParts), urlParseModel s = some u →
      splitBaseUrl s =
        ⟨removeFirstColon u.protocol, u.hostname,
          if u.port != "" then u.port
          else if removeFirstColon u.protocol == "https" then ("443") else ("80")⟩)
    ∧ (∀ s : String, urlParseModel s = none →
        splitBaseUrl s = ⟨phProtocol, phServerName, phPort⟩)
    ∧ splitBaseUrl ("https://api.x.com:8443/v1") = ⟨"https", "api.x.com", "8443"⟩
    ∧ splitBaseUrl ("not a url") = ⟨phProtocol, phServerName, phPort⟩
    ∧ splitBaseUrl (phBaseUrl) = ⟨phProtocol, phServerName, phPort⟩ := by
  refine ⟨?_, ?_, rfl, rfl, rfl⟩
  · intro s u h
    exact splitBaseUrl_parse h
  · intro s h
    unfold splitBaseUrl
    rw [h]

/-- C4 witness: the theorem applied at the claim's concrete inputs,
discharging the parse hypotheses by evaluation. -/
theorem C4_witness :
    urlParseModel ("not a url") = none
    ∧ splitBaseUrl ("not a url") = ⟨phProtocol, phServerName, phPort⟩
    ∧ splitBaseUrl ("https://api.x.com:8443/v1") = ⟨"https", "api.x.com", "8443"⟩ :=
  ⟨rfl,
   C4_split_total_with_fallback.2.1 ("not a url") rfl,
   C4_split_total_with_fallback.1 ("https://api.x.com:8443/v1")
     ⟨"https:", "api.x.com", "8443", "/v1"⟩ rfl⟩

/-- C10: the base URL's path component is discarded by the split — two
URLs parsing to the same protocol/hostname/port split identically whatever
their paths; the path survives only in the BASE_URL variable value, while
every sampler addresses the request through the three symbolic variables
and a path field holding the endpoint's own path alone. -/
theorem C10_base_path_not_in_samplers :
    (∀ (s₁ s₂ : String) (u₁ u₂ : URLParts),
      urlParseModel s₁ = some u₁ → urlParseModel s₂ = some u₂ →
      u₁.protocol = u₂.protocol → u₁.hostname = u₂.hostname → u₁.port = u₂.port →
      splitBaseUrl s₁ = splitBaseUrl s₂)
    ∧ splitBaseUrl ("https://api.x.com/v1") = ⟨"https", "api.x.com", "443"⟩
    ∧ (∀ (hs : List Header) (ep : Endpoint),
        JLine.text ("<stringProp name=\x22HTTPSampler.domain\x22>" ++ phServerName ++ "</stringProp>")
          ∈ samplerJL hs ep
        ∧ JLine.text ("<stringProp name=\x22HTTPSampler.port\x22>" ++ phPort ++ "</stringProp>")
          ∈ samplerJL hs ep
        ∧ JLine.text ("<stringProp name=\x22HTTPSampler.protocol\x22>" ++ phProtocol ++ "</stringProp>")
          ∈ samplerJL hs ep
        ∧ JLine.text ("<stringProp name=\x22HTTPSampler.path\x22>" ++ escapeXml ep.path ++ "</stringProp>")
          ∈ samplerJL hs ep)
    ∧ (∀ cfg : GenConfig,
        JLine.text ("<stringProp name=\x22Argument.value\x22>" ++ escapeXml (varBaseUrl cfg) ++ "</stringProp>")
          ∈ generateJMXJL cfg) := by
  refine ⟨?_, rfl, ?_, ?_⟩
  · intro s₁ s₂ u₁ u₂ h1 h2 hp hh hpt
    rw [splitBaseUrl_parse h1, splitBaseUrl_parse h2, hp, hh, hpt]
  · intro hs ep
    refine ⟨?_, ?_, ?_, ?_⟩ <;> simp [samplerJL]
  · intro cfg
    simp [generateJMXJL, argumentLines]

/-- C10 witness: two base URLs differing only in their path split to the
same triple, and the path-bearing one splits to path-free components. -/
theorem C10_witness :
    urlParseModel ("https://api.x.com/v1") = some ⟨"https:", "api.x.com", "", "/v1"⟩
    ∧ splitBaseUrl ("https://api.x.com/v1") = splitBaseUrl ("https://api.x.com/other") :=
  ⟨rfl,
   C10_base_path_not_in_samplers.1 ("https://api.x.com/v1") ("https://api.x.com/other")
     ⟨"https:", "api.x.com", "", "/v1"⟩ ⟨"https:", "api.x.com", "", "/other"⟩
     rfl rfl rfl rfl rfl⟩

/-- Modelled from the spec: the entity recognizer of the claim's
`unescape` operation — the five XML entities after an ampersand. -/
def entStep : List Char → Option (Char × List Char)
  | 'l' :: 't' :: ';' :: r2 => some ('<', r2)
  | 'g' :: 't' :: ';' :: r2 => some ('>', r2)
  | 'a' :: 'm' :: 'p' :: ';' :: r2 => some ('&', r2)
  | 'a' :: 'p' :: 'o' :: 's' :: ';' :: r2 => some (Char.ofNat 39, r2)
  | 'q' :: 'u' :: 'o' :: 't' :: ';' :: r2 => some (Char.ofNat 34, r2)
  | _ => none

/-- Modelled from the spec: the claim's `unescape` — the standard XML
unescaping scan (src/ contains no unescaper; the spec asserts the escaped
text "round-trips to the original string when unescaped").  The recursion
is indexed by fuel to stay structural; since every step consumes at least
one character, fuel equal to the input length never runs out.  An ampersand
not opening one of the five entities stands for itself. -/
def unescFuel : Nat → List Char → List Char
  | 0, l => l
  | _ + 1, [] => []
  | fuel + 1, c :: rest =>
      if c = '&' then
        match entStep rest with
        | some (d, r2) => d :: unescFuel fuel r2
        | none => c :: unescFuel fuel rest
      else c :: unescFuel fuel rest

/-- String wrapper of the unescaping scan. -/
def unescapeXml (s : String) : String :=
  ⟨unescFuel s.data.length s.data⟩

/-- No raw angle bracket or quote character survives in escaped text. -/
def noRawMeta (s : String) : Bool :=
  s.data.all (fun c => !(c == '<' || c == '>' || c == Char.ofNat 34 || c == Char.ofNat 39))

/-- Unescaping with sufficient fuel inverts per-character escaping. -/
theorem unescFuel_escape (l : List Char) :
    ∀ fuel : Nat, (l.flatMap (fun c => (escapeChar c).data)).length ≤ fuel →
    unescFuel fuel (l.flatMap (fun c => (escapeChar c).data)) = l := by
  induction l with
  | nil =>
      intro fuel _
      cases fuel with
      | zero => rfl
      | succ f => rfl
  | cons c r ih =>
      intro fuel hf
      rw [List.flatMap_cons] at hf ⊢
      by_cases h1 : c = '<'
      · subst h1
        rw [show (escapeChar '<').data = ['&', 'l', 't', ';'] from rfl,
          List.length_append, show (['&', 'l', 't', ';'] : List Char).length = 4 from rfl] at hf
        rw [show (escapeChar '<').data = ['&', 'l', 't', ';'] from rfl]
        cases fuel with
        | zero => omega
        | succ f =>
            show ('<' :: unescFuel f (r.flatMap (fun c => (escapeChar c).data)) : List Char)
              = '<' :: r
            rw [ih f (by omega)]
      by_cases h2 : c = '>'
      · subst h2
        rw [show (escapeChar '>').data = ['&', 'g', 't', ';'] from rfl,
          List.length_append, show (['&', 'g', 't', ';'] : List Char).length = 4 from rfl] at hf
        rw [show (escapeChar '>').data = ['&', 'g', 't', ';'] from rfl]
        cases fuel with
        | zero => omega
        | succ f =>
            show ('>' :: unescFuel f (r.flatMap (fun c => (escapeChar c).data)) : List Char)
              = '>' :: r
            rw [ih f (by omega)]
      by_cases h3 : c = '&'
      · subst h3
        rw [show (escapeChar '&').data = ['&', 'a', 'm', 'p', ';'] from rfl,
          List.length_append,
          show (['&', 'a', 'm', 'p', ';'] : List Char).length = 5 from rfl] at hf
        rw [show (escapeChar '&').data = ['&', 'a', 'm', 'p', ';'] from rfl]
        cases fuel with
        | zero => omega
        | succ f =>
            show ('&' :: unescFuel f (r.flatMap (fun c => (escapeChar c).data)) : List Char)
              = '&' :: r
            rw [ih f (by omega)]
      by_cases h4 : c = Char.ofNat 39
      · subst h4
        rw [show (escapeChar (Char.ofNat 39)).data = ['&', 'a', 'p', 'o', 's', ';'] from rfl,
          List.length_append,
          show (['&', 'a', 'p', 'o', 's', ';'] : List Char).length = 6 from rfl] at hf
        rw [show (escapeChar (Char.ofNat 39)).data = ['&', 'a', 'p', 'o', 's', ';'] from rfl]
        cases fuel with
        | zero => omega
        | succ f =>
            show (Char.ofNat 39 :: unescFuel f (r.flatMap (fun c => (escapeChar c).data)) : List Char)
              = Char.ofNat 39 :: r
            rw [ih f (by omega)]
      by_cases h5 : c = Char.ofNat 34
      · subst h5
        rw [show (escapeChar (Char.ofNat 34)).data = ['&', 'q', 'u', 'o', 't', ';'] from rfl,
          List.length_append,
          show (['&', 'q', 'u', 'o', 't', ';'] : List Char).length = 6 from rfl] at hf
        rw [show (escapeChar (Char.ofNat 34)).data = ['&', 'q', 'u', 'o', 't', ';'] from rfl]
        cases fuel with
        | zero => omega
        | succ f =>
            show (Char.ofNat 34 :: unescFuel f (r.flatMap (fun c => (escapeChar c).data)) : List Char)
              = Char.ofNat 34 :: r
            rw [ih f (by omega)]
      · have hesc : escapeChar c = String.singleton c := by
          unfold escapeChar
          rw [if_neg h1, if_neg h2, if_neg h3, if_neg h4, if_neg h5]
        rw [hesc, show (String.singleton c).data = [c] from rfl,
          List.length_append, show ([c] : List Char).length = 1 from rfl] at hf
        rw [hesc, show (String.singleton c).data = [c] from rfl]
        cases fuel with
        | zero => omega
        | succ f =>
            show unescFuel (f + 1) (c :: (r.flatMap (fun c => (escapeChar c).data))) = c :: r
            simp only [unescFuel]
            rw [if_neg h3, ih f (by omega)]

/-- Escaped text carries no raw metacharacter. -/
theorem noRawMeta_escape_list (l : List Char) :
    (l.flatMap (fun c => (escapeChar c).data)).all
      (fun c => !(c == '<' || c == '>' || c == Char.ofNat 34 || c == Char.ofNat 39)) = true := by
  induction l with
  | nil => rfl
  | cons c r ih =>
      rw [List.flatMap_cons, List.all_append, Bool.and_eq_true]
      refine ⟨?_, ih⟩
      by_cases h1 : c = '<'
      · subst h1; decide
      by_cases h2 : c = '>'
      · subst h2; decide
      by_cases h3 : c = '&'
      · subst h3; decide
      by_cases h4 : c = Char.ofNat 39
      · subst h4; decide
      by_cases h5 : c = Char.ofNat 34
      · subst h5; decide
      · have hesc : escapeChar c = String.singleton c := by
          unfold escapeChar
          rw [if_neg h1, if_neg h2, if_neg h3, if_neg h4, if_neg h5]
        rw [hesc]
        show (!(c == '<' || c == '>' || c == Char.ofNat 34 || c == Char.ofNat 39) && true) = true
        simp [h1, h2, h4, h5]

/-- C6: every free-text interpolation goes through `escapeXml` (the title
site shown as a line of the emitted document), escaping removes all raw
metacharacters, and unescaping the escaped text recovers the original
string, for every string; with the claim's concrete title example. -/
theorem C6_escaping_roundtrip :
    (∀ s : String, unescapeXml (escapeXml s) = s)
    ∧ (∀ s : String, noRawMeta (escapeXml s) = true)
    ∧ escapeXml ("A<B&\x22C") = "A&lt;B&amp;&quot;C"
    ∧ unescapeXml ("A&lt;B&amp;&quot;C") = "A<B&\x22C"
    ∧ (∀ cfg : GenConfig,
        JLine.text ("<TestPlan guiclass=\x22TestPlanGui\x22 testclass=\x22TestPlan\x22 testname=\x22"
          ++ testPlanName cfg ++ "\x22 enabled=\x22true\x22>") ∈ generateJMXJL cfg) := by
  refine ⟨?_, ?_, rfl, rfl, ?_⟩
  · intro s
    show String.mk
      (unescFuel ((s.data.flatMap (fun c => (escapeChar c).data)).length)
        (s.data.flatMap (fun c => (escapeChar c).data))) = s
    rw [unescFuel_escape s.data ((s.data.flatMap (fun c => (escapeChar c).data)).length)
      (Nat.le_refl _)]
  · intro s
    exact noRawMeta_escape_list s.data
  · intro cfg
    simp [generateJMXJL]

/-- The structural tokens of the emitted document. -/
inductive HTok : Type where
  | op : HTok
  | cl : HTok
  | lf : HTok

/-- Classify a line as a structural marker. -/
def hashTok : JLine → Option HTok
  | .htOpen => some .op
  | .htClose => some .cl
  | .htLeaf => some .lf
  | .text _ => none

/-- The sequence of structural markers of the emitted document. -/
def hashSeq (cfg : GenConfig) : List HTok :=
  (generateJMXJL cfg).filterMap hashTok

/-- Depth check: opens and closes balance, never dropping below zero. -/
def balancedAux : List HTok → Nat → Bool
  | [], d => d == 0
  | .op :: ts, d => balancedAux ts (d + 1)
  | .cl :: ts, d =>
      match d with
      | 0 => false
      | Nat.succ d2 => balancedAux ts d2
  | .lf :: ts, d => balancedAux ts d

/-- Text lines carry no structural marker. -/
theorem textsFilterMap (l : List String) : (l.map JLine.text).filterMap hashTok = [] := by
  induction l with
  | nil => rfl
  | cons a l ih => simp [hashTok, ih]

/-- Composed form of `textsFilterMap`, as simp normalizes it. -/
theorem textsFilterMapComp (l : List String) :
    l.filterMap (hashTok ∘ JLine.text) = [] := by
  induction l with
  | nil => rfl
  | cons a l ih => simp [List.filterMap_cons, Function.comp, hashTok, ih]

/-- Each sampler block contributes exactly open, leaf, close. -/
theorem samplerSeq (hs : List Header) (ep : Endpoint) :
    (samplerJL hs ep).filterMap hashTok = [HTok.op, HTok.lf, HTok.cl] := by
  simp [samplerJL, List.filterMap_append, textsFilterMap, hashTok]

/-- The endpoint loop contributes one open/leaf/close triple per endpoint. -/
theorem endpointsSeq (hs : List Header) (eps : List Endpoint) :
    (eps.flatMap (samplerJL hs)).filterMap hashTok
      = eps.flatMap (fun _ => [HTok.op, HTok.lf, HTok.cl]) := by
  induction eps with
  | nil => rfl
  | cons e eps ih => simp [List.flatMap_cons, List.filterMap_append, samplerSeq, ih]

/-- The marker sequence of the whole document. -/
theorem hashSeq_eq (cfg : GenConfig) :
    hashSeq cfg = [HTok.op, HTok.op, HTok.op]
      ++ cfg.endpoints.flatMap (fun _ => [HTok.op, HTok.lf, HTok.cl])
      ++ [HTok.lf, HTok.cl, HTok.cl, HTok.cl] := by
  unfold hashSeq generateJMXJL
  simp [List.filterMap_append, List.filterMap_cons, textsFilterMap,
    textsFilterMapComp, endpointsSeq, hashTok]

/-- Uniform open/leaf/close blocks keep the depth unchanged. -/
theorem balanced_blocks {α : Type} (xs : List α) (rest : List HTok) (d : Nat) :
    balancedAux ((xs.flatMap (fun _ => [HTok.op, HTok.lf, HTok.cl])) ++ rest) d
      = balancedAux rest d := by
  induction xs with
  | nil => rfl
  | cons x xs ih =>
      rw [List.flatMap_cons, List.append_assoc]
      exact ih

/-- C7: the structural markers of every emitted document form the fixed
pattern — three opens (container, plan children, thread-group children),
one open/empty-marker/close triple per endpoint, then the results-collector
empty marker and the three closes in reverse order — and the open/close
sequence is balanced at depth zero. -/
theorem C7_hashtree_nesting :
    ∀ cfg : GenConfig,
      (hashSeq cfg = [HTok.op, HTok.op, HTok.op]
        ++ cfg.endpoints.flatMap (fun _ => [HTok.op, HTok.lf, HTok.cl])
        ++ [HTok.lf, HTok.cl, HTok.cl, HTok.cl])
      ∧ balancedAux (hashSeq cfg) 0 = true := by
  intro cfg
  have h1 := hashSeq_eq cfg
  refine ⟨h1, ?_⟩
  rw [h1, List.append_assoc]
  have h2 : balancedAux
      ((cfg.endpoints.flatMap (fun _ => [HTok.op, HTok.lf, HTok.cl]))
        ++ [HTok.lf, HTok.cl, HTok.cl, HTok.cl]) 3 = true := by
    rw [balanced_blocks]
    rfl
  exact h2

/-- A line closing a header element opening tag. -/
def lineIsHeaderOpen (s : String) : Bool :=
  ("elementType=\x22Header\x22>").data.isSuffixOf s.data

/-- The claim's concrete header list: one blank key, one `Auth` entry. -/
def exHeaders : List Header := [⟨"", "x"⟩, ⟨"Auth", "Bearer t"⟩]

/-- A concrete endpoint for serializer examples. -/
def exEp : Endpoint := ⟨"/users", "GET", none, none, .arr [], .null, .arr [], .null⟩

/-- A concrete full configuration for serializer examples. -/
def exCfg : GenConfig := ⟨"T", "https://api.x.com/v1", 10, 1, 60, [exEp], exHeaders⟩

/-- C5: per header list, the emitted header elements are exactly the
four-line blocks of the entries whose key is non-blank after trimming, in
list order (blank keys silently skipped); on the claim's concrete list the
output is exactly the `Auth` block, and the fully serialized document
contains exactly one header element opening line, the `Auth` one. -/
theorem C5_header_filtering :
    (∀ hs : List Header,
      hs.flatMap headerEntryLines
        = (hs.filter (fun h => !(strTrim h.key == ""))).flatMap headerBlock)
    ∧ exHeaders.flatMap headerEntryLines = headerBlock ⟨"Auth", "Bearer t"⟩
    ∧ (generateJMXLines exCfg).countP lineIsHeaderOpen = 1
    ∧ ("<elementProp name=\x22Auth\x22 elementType=\x22Header\x22>" ∈ generateJMXLines exCfg) := by
  refine ⟨?_, rfl, by decide, by decide⟩
  intro hs
  induction hs with
  | nil => rfl
  | cons h t ih =>
      by_cases hb : strTrim h.key == "" <;>
        simp [headerEntryLines, hb, ih, List.flatMap_cons]

end S2J
